import Mathlib

/-!
Verification of the report-structuring core of the Competitor-Analysis-Agent
repository (`src/utils.py`): the section classifier
(`format_report_for_display`), the metrics extractor (`extract_key_metrics`),
the markup-to-PDF renderer (`PDFReportGenerator`) and the filename helper
(`generate_filename`).

Python strings are modelled as `List Char`; each Python primitive used by the
source (`str.lower`, `str.strip`, `in` substring test, `str.split`,
`str.join`, `str.startswith`) is embedded as a structurally recursive Lean
function with the same semantics on ASCII text.
-/

/-- A line of text, as a list of characters (model of a Python `str`). -/
abbrev Line := List Char

/-- Model of Python `str.lower()` (ASCII case folding). -/
def pyLower (s : Line) : Line := s.map Char.toLower

/-- Model of Python `str.lstrip()`: drop leading whitespace. -/
def lstrip (s : Line) : Line := s.dropWhile Char.isWhitespace

/-- Model of Python `str.rstrip()`: drop trailing whitespace. -/
def rstrip (s : Line) : Line := (s.reverse.dropWhile Char.isWhitespace).reverse

/-- Model of Python `str.strip()`: drop whitespace at both ends. -/
def pyStrip (s : Line) : Line := rstrip (lstrip s)

/-- Model of the Python substring test `needle in hay`. -/
def containsSub : Line → Line → Bool
  | [], needle => needle.isEmpty
  | h :: t, needle => needle.isPrefixOf (h :: t) || containsSub t needle

/-- Model of Python `s.split('\n')`: split into lines at newline characters,
keeping empty pieces (so the result is never the empty list). -/
def splitNl : List Char → List Line
  | [] => [[]]
  | c :: cs =>
    if c = '\n' then [] :: splitNl cs
    else
      match splitNl cs with
      | [] => [[c]]
      | l :: ls => (c :: l) :: ls

/-- Model of Python `'\n'.join(lines)`. -/
def joinNl : List Line → List Char
  | [] => []
  | [l] => l
  | l :: ls => l ++ '\n' :: joinNl ls

/-- `scanl`-style list of intermediate states of a left fold (includes the
initial state; used to model the observable states of an in-place loop). -/
def pyScanl (f : β → α → β) (b : β) : List α → List β
  | [] => [b]
  | a :: as => b :: pyScanl f (f b a) as

/-! ## Section classifier (`format_report_for_display`, src/utils.py:258-326) -/

/-- The four fixed section keys of the classifier's dictionary. -/
inductive SectionKey
  | overview
  | detailed_analysis
  | competitor_matrix
  | recommendations
deriving DecidableEq, Repr

/-- The classifier's result map: the four fixed keys, each holding a string
(`sections` dict in `format_report_for_display`). -/
structure Sections where
  overview : List Char
  detailed_analysis : List Char
  competitor_matrix : List Char
  recommendations : List Char
deriving DecidableEq, Repr

/-- The initial `sections` dict: all four values the empty string. -/
def sectionsInit : Sections := ⟨[], [], [], []⟩

/-- Dictionary assignment `sections[key] = value`. -/
def setSection (s : Sections) : SectionKey → List Char → Sections
  | .overview, v => { s with overview := v }
  | .detailed_analysis, v => { s with detailed_analysis := v }
  | .competitor_matrix, v => { s with competitor_matrix := v }
  | .recommendations, v => { s with recommendations := v }

/-- `line.lower().strip()` as computed at the top of the classifier loop. -/
def lowerStrip (l : Line) : Line := pyStrip (pyLower l)

/-- First header rule: `'executive summary' in line_lower or 'key findings' in
line_lower` (src/utils.py:286). -/
def ruleOverview (ll : Line) : Bool :=
  containsSub ll "executive summary".data || containsSub ll "key findings".data

/-- Second header rule: `'detailed competitor analysis' in line_lower or
'swot' in line_lower` (src/utils.py:292). -/
def ruleDetailed (ll : Line) : Bool :=
  containsSub ll "detailed competitor analysis".data || containsSub ll "swot".data

/-- Third header rule: `'comparison matrix' in line_lower or 'competitive
comparison' in line_lower` (src/utils.py:298). -/
def ruleMatrix (ll : Line) : Bool :=
  containsSub ll "comparison matrix".data || containsSub ll "competitive comparison".data

/-- Fourth header rule, with Python's operator precedence kept exactly as in
the source: `'recommendation' in line_lower or 'strategic' in line_lower and
'recommendation' in line_lower` (src/utils.py:304). -/
def ruleRecommendations (ll : Line) : Bool :=
  containsSub ll "recommendation".data ||
    (containsSub ll "strategic".data && containsSub ll "recommendation".data)

/-- The fourth rule the way the spec's simplified reading states it:
plain containment of "recommendation". -/
def ruleRecommendationsSimple (ll : Line) : Bool :=
  containsSub ll "recommendation".data

/-- Whether any of the four header rules fires on a line. -/
def matchesAnyRule (l : Line) : Bool :=
  ruleOverview (lowerStrip l) || ruleDetailed (lowerStrip l) ||
    ruleMatrix (lowerStrip l) || ruleRecommendations (lowerStrip l)

/-- The loop state of the classifier: the `sections` dict, `current_section`
and `current_content`. -/
structure ClassifyState where
  sections : Sections
  current_section : Option SectionKey
  current_content : List Line
deriving DecidableEq, Repr

/-- Flush `current_content` (joined by newline) into
`sections[current_section]`, a no-op when `current_section` is `None`. -/
def flushInto (st : ClassifyState) : Sections :=
  match st.current_section with
  | none => st.sections
  | some k => setSection st.sections k (joinNl st.current_content)

/-- One iteration of the classifier loop (src/utils.py:282-312). -/
def classifyStep (st : ClassifyState) (line : Line) : ClassifyState :=
  let ll := lowerStrip line
  if ruleOverview ll then
    { sections := flushInto st, current_section := some .overview,
      current_content := [line] }
  else if ruleDetailed ll then
    { sections := flushInto st, current_section := some .detailed_analysis,
      current_content := [line] }
  else if ruleMatrix ll then
    { sections := flushInto st, current_section := some .competitor_matrix,
      current_content := [line] }
  else if ruleRecommendations ll then
    { sections := flushInto st, current_section := some .recommendations,
      current_content := [line] }
  else
    match st.current_section with
    | some _ => { st with current_content := st.current_content ++ [line] }
    | none => st

/-- The starting loop state. -/
def classifyInit : ClassifyState :=
  { sections := sectionsInit, current_section := none, current_content := [] }

/-- Python truthiness test `not any(sections.values())`: all four values are
the empty string. -/
def allSectionsEmpty (s : Sections) : Bool :=
  s.overview.isEmpty && s.detailed_analysis.isEmpty &&
    s.competitor_matrix.isEmpty && s.recommendations.isEmpty

/-- The `try`-block body of `format_report_for_display`, with exceptions
modelled by the `Except` monad.  Every primitive the body uses is total on
strings, so each step is `pure`. -/
def classifyBodyE (report_content : List Char) : Except String Sections := do
  let lines := splitNl report_content
  let st ← lines.foldlM (fun st line => pure (classifyStep st line)) classifyInit
  let sections := flushInto st
  if allSectionsEmpty sections then
    pure { sections with overview := report_content }
  else
    pure sections

/-- `format_report_for_display` (src/utils.py:258-326): run the body; the
`except` clause catches any error, logs, and falls back to putting the whole
text into `overview`. -/
def format_report_for_display (report_content : List Char) : Sections :=
  match classifyBodyE report_content with
  | .ok sections => sections
  | .error _ => { sectionsInit with overview := report_content }

/-- The same computation written as a plain fold (no monad); proved equal to
the `Except`-typed body below. -/
def classifyPure (report_content : List Char) : Sections :=
  let st := (splitNl report_content).foldl classifyStep classifyInit
  let sections := flushInto st
  if allSectionsEmpty sections then
    { sections with overview := report_content }
  else
    sections

theorem foldlM_except_pure (f : β → α → β) (l : List α) (init : β) :
    (l.foldlM (m := Except String) (fun b a => pure (f b a)) init) =
      pure (l.foldl f init) := by
  induction l generalizing init with
  | nil => rfl
  | cons a t ih => simpa [List.foldlM_cons] using ih (f init a)

theorem classifyBodyE_eq (r : List Char) :
    classifyBodyE r = Except.ok (classifyPure r) := by
  simp only [classifyBodyE, classifyPure, foldlM_except_pure, pure_bind]
  split <;> rfl

theorem format_report_for_display_eq (r : List Char) :
    format_report_for_display r = classifyPure r := by
  unfold format_report_for_display
  rw [classifyBodyE_eq]

/-! ## Metrics extractor (`extract_key_metrics`, src/utils.py:329-381) -/

/-- The `metrics` dict of `extract_key_metrics`. -/
structure Metrics where
  num_competitors : Nat
  key_findings : List (List Char)
  threat_level : List Char
  opportunities : Nat
deriving DecidableEq, Repr

/-- The initial `metrics` dict (src/utils.py:339-344). -/
def defaultMetrics : Metrics :=
  { num_competitors := 0, key_findings := [], threat_level := "Medium".data,
    opportunities := 0 }

/-- `line.strip().startswith(('1.', '2.', '3.', '4.', '5.'))` applied to the
already-stripped line. -/
def startsWithNum (s : Line) : Bool :=
  "1.".data.isPrefixOf s || "2.".data.isPrefixOf s || "3.".data.isPrefixOf s ||
    "4.".data.isPrefixOf s || "5.".data.isPrefixOf s

/-- `line.strip().startswith(('1.', '2.', '3.', '-', '*'))` applied to the
already-stripped line. -/
def startsWithOpp (s : Line) : Bool :=
  "1.".data.isPrefixOf s || "2.".data.isPrefixOf s || "3.".data.isPrefixOf s ||
    "-".data.isPrefixOf s || "*".data.isPrefixOf s

/-- One iteration of the competitor-counting loop (src/utils.py:350-352):
count lines starting with `### ` whose lowercase text avoids the three
keywords. -/
def compStepM (m : Metrics) (l : Line) : Metrics :=
  if "### ".data.isPrefixOf l &&
      !(containsSub (pyLower l) "recommendation".data ||
        containsSub (pyLower l) "summary".data ||
        containsSub (pyLower l) "finding".data) then
    { m with num_competitors := m.num_competitors + 1 }
  else
    m

/-- One iteration of the key-findings loop (src/utils.py:355-364).  The state
is `(metrics, in_findings, broken)`; `broken` records that the loop's `break`
has run, after which remaining iterations do nothing. -/
def findStepM : Metrics × Bool × Bool → Line → Metrics × Bool × Bool
  | (m, inF, true), _ => (m, inF, true)
  | (m, inF, false), l =>
    if containsSub (pyLower l) "key findings".data then (m, true, false)
    else if inF then
      if startsWithNum (pyStrip l) then
        ({ m with key_findings :=
            m.key_findings ++ [pyStrip (List.drop 3 (pyStrip l))] }, inF, false)
      else if "##".data.isPrefixOf l then (m, inF, true)
      else (m, inF, false)
    else (m, false, false)

/-- One iteration of the opportunity-counting loop (src/utils.py:367-376),
with the same `(metrics, in_opportunities, broken)` state convention. -/
def oppStepM : Metrics × Bool × Bool → Line → Metrics × Bool × Bool
  | (m, inO, true), _ => (m, inO, true)
  | (m, inO, false), l =>
    if containsSub (pyLower l) "market opportunities".data ||
        containsSub (pyLower l) "opportunities".data then (m, true, false)
    else if inO then
      if startsWithOpp (pyStrip l) then
        ({ m with opportunities := m.opportunities + 1 }, inO, false)
      else if "##".data.isPrefixOf l then (m, inO, true)
      else (m, inO, false)
    else (m, false, false)

/-- The `try`-block body of `extract_key_metrics`, with exceptions modelled by
the `Except` monad; every primitive the body uses is total on strings. -/
def extractBodyE (report_content : List Char) : Except String Metrics := do
  let lines := splitNl report_content
  let m1 ← lines.foldlM (fun m l => pure (compStepM m l)) defaultMetrics
  let st2 ← lines.foldlM (fun st l => pure (findStepM st l)) (m1, false, false)
  let st3 ← lines.foldlM (fun st l => pure (oppStepM st l)) (st2.1, false, false)
  pure st3.1

/-- `extract_key_metrics` (src/utils.py:329-381): run the body; the `except`
clause catches any error and the already-initialized `metrics` dict is
returned (here: the body never errs, see `extractBodyE_ok`). -/
def extract_key_metrics (report_content : List Char) : Metrics :=
  match extractBodyE report_content with
  | .ok m => m
  | .error _ => defaultMetrics

/-- The same computation written as plain folds. -/
def extractPure (report_content : List Char) : Metrics :=
  let lines := splitNl report_content
  let m1 := lines.foldl compStepM defaultMetrics
  let st2 := lines.foldl findStepM (m1, false, false)
  let st3 := lines.foldl oppStepM (st2.1, false, false)
  st3.1

theorem extractBodyE_eq (r : List Char) :
    extractBodyE r = Except.ok (extractPure r) := by
  simp only [extractBodyE, extractPure, foldlM_except_pure, pure_bind]
  rfl

theorem extract_key_metrics_eq (r : List Char) :
    extract_key_metrics r = extractPure r := by
  unfold extract_key_metrics
  rw [extractBodyE_eq]

/-- The observable states of the `metrics` dict during `extract_key_metrics`:
the dict is mutated in place by three sequential loops over the lines, so an
exception raised between any two iterations leaves the dict at the
corresponding intermediate state.  The list starts with the freshly
initialized dict (no iteration run yet). -/
def metricsTrajectory (report_content : List Char) : List Metrics :=
  let lines := splitNl report_content
  let m1 := lines.foldl compStepM defaultMetrics
  let st2 := lines.foldl findStepM (m1, false, false)
  pyScanl compStepM defaultMetrics lines ++
    ((pyScanl findStepM (m1, false, false) lines).map (·.1)).tail ++
    ((pyScanl oppStepM (st2.1, false, false) lines).map (·.1)).tail

/-- The value `extract_key_metrics` returns when an exception interrupts the
`try` block after `k` loop iterations: the `except` clause catches the error,
logs it, and the function returns the `metrics` dict as mutated so far
(src/utils.py:378-381).  Interruption points at or past the end of the
trajectory mean no exception interrupted anything, so the normal result is
returned. -/
def extract_key_metrics_onException (report_content : List Char) (k : Nat) : Metrics :=
  ((metricsTrajectory report_content).drop k).headD (extractPure report_content)

/-! ## Markup-to-PDF renderer (`PDFReportGenerator`, src/utils.py:24-255) -/

/-- The five custom paragraph styles registered in `_create_custom_styles`
(src/utils.py:41-96). -/
inductive StyleName
  | CustomTitle
  | CustomHeading2
  | CustomHeading3
  | CustomBody
  | CustomBullet
deriving DecidableEq, Repr

/-- Paragraph alignment values (`TA_LEFT`, `TA_CENTER`, `TA_JUSTIFY`). -/
inductive ParaAlignment
  | left
  | center
  | justify
deriving DecidableEq, Repr

/-- Alignment of each custom style: `CustomTitle` is `TA_CENTER`,
`CustomBody` is `TA_JUSTIFY`, the rest keep the left-aligned default
(src/utils.py:41-96). -/
def styleAlignment : StyleName → ParaAlignment
  | .CustomTitle => .center
  | .CustomHeading2 => .left
  | .CustomHeading3 => .left
  | .CustomBody => .justify
  | .CustomBullet => .left

/-- Font size of each custom style (src/utils.py:41-96). -/
def styleFontSize : StyleName → Nat
  | .CustomTitle => 24
  | .CustomHeading2 => 16
  | .CustomHeading3 => 14
  | .CustomBody => 11
  | .CustomBullet => 10

/-- One flowable element of the PDF story: a styled paragraph, a spacer
(height in hundredths of an inch, so `Spacer(1, 0.3*inch)` is `spacer 1 30`),
or an explicit page break. -/
inductive PdfElement
  | para (text : List Char) (style : StyleName)
  | spacer (width : Nat) (heightCentiInch : Nat)
  | pageBreak
deriving DecidableEq, Repr

/-- The backquote character used by the inline-code pattern. -/
def backquoteChar : Char := Char.ofNat 96

/-- Lazy search for the closing `**` of the bold pattern `\*\*(.+?)\*\*`:
given the text after an opening `**`, return the shortest non-empty,
newline-free content followed by `**`, and the text after that closing
marker. -/
def splitAtBoldClose : List Char → Option (List Char × List Char)
  | [] => none
  | c :: rest =>
    if c = '\n' then none
    else if ['*', '*'].isPrefixOf rest then some ([c], rest.drop 2)
    else
      match splitAtBoldClose rest with
      | some (content, after) => some (c :: content, after)
      | none => none

/-- Lazy search for a single closing character `close` (the italic pattern
`\*(.+?)\*` and the code pattern with backquotes): shortest non-empty,
newline-free content followed by `close`. -/
def splitAtCharClose (close : Char) : List Char → Option (List Char × List Char)
  | [] => none
  | c :: rest =>
    if c = '\n' then none
    else if [close].isPrefixOf rest then some ([c], rest.drop 1)
    else
      match splitAtCharClose close rest with
      | some (content, after) => some (c :: content, after)
      | none => none

/-- `re.sub(r'\*\*(.+?)\*\*', r'<b>\1</b>', text)` (src/utils.py:249):
leftmost, non-greedy, non-overlapping replacement.  The fuel argument starts
at the text length and strictly bounds the recursion; every recursive call is
on a strictly shorter list, so the fuel never runs out. -/
def subBoldGo : Nat → List Char → List Char
  | 0, s => s
  | Nat.succ fuel, s =>
    match s with
    | [] => []
    | '*' :: '*' :: rest =>
      match splitAtBoldClose rest with
      | some (content, after) =>
        "<b>".data ++ content ++ "</b>".data ++ subBoldGo fuel after
      | none => '*' :: subBoldGo fuel ('*' :: rest)
    | c :: rest => c :: subBoldGo fuel rest

/-- Bold substitution over a whole line. -/
def subBold (s : List Char) : List Char := subBoldGo s.length s

/-- `re.sub(r'\*(.+?)\*', r'<i>\1</i>', text)` (src/utils.py:251). -/
def subItalicGo : Nat → List Char → List Char
  | 0, s => s
  | Nat.succ fuel, s =>
    match s with
    | [] => []
    | '*' :: rest =>
      match splitAtCharClose '*' rest with
      | some (content, after) =>
        "<i>".data ++ content ++ "</i>".data ++ subItalicGo fuel after
      | none => '*' :: subItalicGo fuel rest
    | c :: rest => c :: subItalicGo fuel rest

/-- Italic substitution over a whole line. -/
def subItalic (s : List Char) : List Char := subItalicGo s.length s

/-- The inline-code substitution (src/utils.py:253): backquoted content is
wrapped in a Courier font tag. -/
def subCodeGo : Nat → List Char → List Char
  | 0, s => s
  | Nat.succ fuel, s =>
    match s with
    | [] => []
    | c :: rest =>
      if c = backquoteChar then
        match splitAtCharClose backquoteChar rest with
        | some (content, after) =>
          "<font name=\"Courier\">".data ++ content ++ "</font>".data ++
            subCodeGo fuel after
        | none => c :: subCodeGo fuel rest
      else c :: subCodeGo fuel rest

/-- Code substitution over a whole line. -/
def subCode (s : List Char) : List Char := subCodeGo s.length s

/-- `PDFReportGenerator._clean_markdown` (src/utils.py:246-255): bold is
resolved first, then italic, then inline code. -/
def clean_markdown (text : List Char) : List Char :=
  subCode (subItalic (subBold text))

/-- Per-line classification of `_parse_report_content` (src/utils.py:183-244):
the elements appended for one (stripped) line of the report. -/
def parseLine (rawLine : Line) : List PdfElement :=
  let line := pyStrip rawLine
  if line.isEmpty then []
  else if "# ".data.isPrefixOf line then
    [.para (pyStrip (line.drop 2)) .CustomTitle, .spacer 1 20]
  else if "## ".data.isPrefixOf line then
    [.spacer 1 15, .para (pyStrip (line.drop 3)) .CustomHeading2, .spacer 1 10]
  else if "### ".data.isPrefixOf line then
    [.para (pyStrip (line.drop 4)) .CustomHeading3, .spacer 1 5]
  else if "- ".data.isPrefixOf line || "* ".data.isPrefixOf line then
    [.para ("• ".data ++ pyStrip (line.drop 2)) .CustomBullet]
  else if "1. ".data.isPrefixOf line || "2. ".data.isPrefixOf line ||
      "3. ".data.isPrefixOf line then
    [.para (line.take 1 ++ ". ".data ++ pyStrip (line.drop 3)) .CustomBullet]
  else if "---".data.isPrefixOf line then
    [.spacer 1 10]
  else
    [.para (clean_markdown line) .CustomBody]

/-- `_parse_report_content` (src/utils.py:183-244): the loop visits each line
once (the index always advances by one), appending that line's elements. -/
def parse_report_content (content : List Char) : List PdfElement :=
  ((splitNl content).map parseLine).flatten

/-- `_create_title_page` (src/utils.py:143-181).  The current date string is
passed explicitly (the source stamps `datetime.now()`). -/
def create_title_page (company_name industry dateStr : List Char) : List PdfElement :=
  [ .para "COMPETITOR ANALYSIS REPORT".data .CustomTitle,
    .spacer 1 30,
    .para ("<b>".data ++ company_name ++ "</b>".data) .CustomHeading2,
    .spacer 1 20,
    .para ("Industry: ".data ++ industry) .CustomBody,
    .spacer 1 10,
    .para ("Report Date: ".data ++ dateStr) .CustomBody,
    .pageBreak ]

/-- The story (flowable sequence) built by `generate_pdf`
(src/utils.py:98-141): title page first, then the parsed report body. -/
def generate_pdf_elements (company_name industry dateStr report_content : List Char) :
    List PdfElement :=
  create_title_page company_name industry dateStr ++
    parse_report_content report_content

/-! ## Filename helper (`generate_filename`, src/utils.py:403-422) -/

/-- `re.sub(r'[^\w\s-]', '', company_name)`: keep only word characters
(alphanumeric or underscore), whitespace, and hyphens. -/
def sanitizeKeep (s : List Char) : List Char :=
  s.filter (fun c => (c.isAlphanum || c = '_') || c.isWhitespace || c = '-')

/-- `re.sub(r'[-\s]+', '_', s)`: each maximal run of hyphens/whitespace
becomes a single underscore.  The flag records whether the previous character
was part of such a run. -/
def collapseRunsAux : Bool → List Char → List Char
  | _, [] => []
  | prevRun, c :: rest =>
    if c.isWhitespace || c = '-' then
      if prevRun then collapseRunsAux true rest
      else '_' :: collapseRunsAux true rest
    else c :: collapseRunsAux false rest

/-- Collapse hyphen/whitespace runs to single underscores. -/
def collapseRuns (s : List Char) : List Char := collapseRunsAux false s

/-- `generate_filename` (src/utils.py:403-422).  The current date (formatted
`YYYYMMDD`) is passed explicitly. -/
def generate_filename (company_name extension dateStr : List Char) : List Char :=
  "competitor_analysis_".data ++ collapseRuns (sanitizeKeep company_name) ++
    "_".data ++ dateStr ++ ".".data ++ extension

/-- The sanitization exactly as the spec words it: strip every character that
is not alphanumeric, underscore, whitespace, or hyphen, then collapse runs of
hyphens/whitespace to a single underscore. -/
def sanitizeSpec (s : List Char) : List Char :=
  collapseRuns (s.filter (fun c => c.isAlphanum || c = '_' || c.isWhitespace || c = '-'))

/-! ## General lemmas about the text primitives -/

theorem containsSub_iff (hay needle : Line) :
    containsSub hay needle = true ↔ needle <:+: hay := by
  induction hay with
  | nil => simp [containsSub, List.isEmpty_iff]
  | cons h t ih =>
    simp [containsSub, Bool.or_eq_true, ih, List.infix_cons_iff,
      List.isPrefixOf_iff_prefix]

theorem rstrip_cons (c : Char) (s : List Char) (hc : c.isWhitespace = false) :
    rstrip (c :: s) = c :: rstrip s := by
  unfold rstrip
  rw [List.reverse_cons, List.dropWhile_append]
  by_cases h : (s.reverse.dropWhile Char.isWhitespace).isEmpty
  · simp_all [List.dropWhile, List.isEmpty_iff]
  · simp [h, List.reverse_append]

theorem containsSub_of_left_append (pre s : Line) :
    containsSub (pre ++ s) s = true := by
  rw [containsSub_iff]
  exact (List.suffix_append pre s).isInfix

theorem containsSub_mid (pre s post : Line) :
    containsSub (pre ++ s ++ post) s = true := by
  rw [containsSub_iff]
  exact ⟨pre, post, rfl⟩

/-! ## Claim theorems -/

/-- Claim C7: on the line `**bold** and *italic*`, `_clean_markdown` (with bold
resolved before italic) yields a bold span containing exactly "bold" and an
italic span containing exactly "italic" — no partial match of the
single-asterisk pattern inside the double-asterisk sequence. -/
theorem clean_markdown_bold_before_italic :
    clean_markdown "**bold** and *italic*".data =
      "<b>bold</b> and <i>italic</i>".data := by decide

/-- Claim C9: `generate_filename` is a total function of company name,
extension and current date, returning
`competitor_analysis_{sanitized}_{date}.{extension}` with the sanitization the
spec states (strip characters that are not alphanumeric, underscore,
whitespace or hyphen; collapse hyphen/whitespace runs to one underscore); in
particular "Acme, Inc." with extension "pdf" on 2024-05-01 gives
`competitor_analysis_Acme_Inc_20240501.pdf`, and the empty company name gives
`competitor_analysis__20240501.pdf`. -/
theorem generate_filename_spec :
    (∀ company_name extension dateStr : List Char,
      generate_filename company_name extension dateStr =
        "competitor_analysis_".data ++ sanitizeSpec company_name ++ "_".data ++
          dateStr ++ ".".data ++ extension) ∧
    generate_filename "Acme, Inc.".data "pdf".data "20240501".data =
      "competitor_analysis_Acme_Inc_20240501.pdf".data ∧
    generate_filename [] "pdf".data "20240501".data =
      "competitor_analysis__20240501.pdf".data := by
  refine ⟨fun name ext d => ?_, by decide, by decide⟩
  unfold generate_filename sanitizeSpec sanitizeKeep
  have h : ∀ c : Char,
      ((c.isAlphanum || c = '_') || c.isWhitespace || c = '-') =
        (c.isAlphanum || c = '_' || c.isWhitespace || c = '-') := by
    intro c
    cases c.isAlphanum <;> simp
  simp only [h]

/-- Claim C2: for every string input, both `format_report_for_display` and
`extract_key_metrics` return normally — their `try`-block bodies never err,
so the result reaching the caller is always the ordinary `Except.ok` value,
never a propagated exception. -/
theorem classify_extract_never_raise (r : List Char) :
    classifyBodyE r = Except.ok (format_report_for_display r) ∧
      extractBodyE r = Except.ok (extract_key_metrics r) :=
  ⟨by rw [format_report_for_display_eq, classifyBodyE_eq],
   by rw [extract_key_metrics_eq, extractBodyE_eq]⟩

/-- Claim C4: the classifier's fourth rule, written in the source as
`'recommendation' in line_lower or 'strategic' in line_lower and
'recommendation' in line_lower`, is logically equivalent to the plain
containment test for "recommendation"; when no earlier rule matches, the
classifier enters the `recommendations` section exactly when the lowercased
trimmed line contains "recommendation" — so a line containing "strategic"
but not "recommendation" never triggers it. -/
theorem recommendations_rule_equiv (line : Line) :
    ruleRecommendations (lowerStrip line) = ruleRecommendationsSimple (lowerStrip line) ∧
      (ruleOverview (lowerStrip line) = false →
        ruleDetailed (lowerStrip line) = false →
        ruleMatrix (lowerStrip line) = false →
        ((classifyStep classifyInit line).current_section =
            some SectionKey.recommendations ↔
          ruleRecommendationsSimple (lowerStrip line) = true)) := by
  have heq : ruleRecommendations (lowerStrip line) =
      ruleRecommendationsSimple (lowerStrip line) := by
    unfold ruleRecommendations ruleRecommendationsSimple
    cases containsSub (lowerStrip line) "recommendation".data <;>
      cases containsSub (lowerStrip line) "strategic".data <;> rfl
  refine ⟨heq, fun ho hd hm => ?_⟩
  unfold classifyStep
  simp only [ho, hd, hm, heq, Bool.false_eq_true, if_false]
  cases hr : ruleRecommendationsSimple (lowerStrip line) with
  | true => simp [hr]
  | false => simp [hr, classifyInit]

theorem recommendations_rule_equiv_witness :
    (classifyStep classifyInit "Strategic plan".data).current_section ≠
      some SectionKey.recommendations := by
  intro h
  have h2 := (recommendations_rule_equiv "Strategic plan".data).2
    (by decide) (by decide) (by decide)
  exact absurd (h2.mp h) (by decide)

/-- Claim C8: for every report text, company name, industry (and date), the
flowable sequence of `generate_pdf` begins with the fixed title page — the
centered "COMPETITOR ANALYSIS REPORT" title, a block containing the company
name verbatim, a block containing the industry verbatim, a date block, and an
explicit page break — before any block derived from the report body. -/
theorem generate_pdf_title_page_first (c i d r : List Char) :
    generate_pdf_elements c i d r =
      [ PdfElement.para "COMPETITOR ANALYSIS REPORT".data .CustomTitle,
        .spacer 1 30,
        .para ("<b>".data ++ c ++ "</b>".data) .CustomHeading2,
        .spacer 1 20,
        .para ("Industry: ".data ++ i) .CustomBody,
        .spacer 1 10,
        .para ("Report Date: ".data ++ d) .CustomBody,
        .pageBreak ] ++ parse_report_content r ∧
      styleAlignment .CustomTitle = .center ∧
      containsSub ("<b>".data ++ c ++ "</b>".data) c = true ∧
      containsSub ("Industry: ".data ++ i) i = true :=
  ⟨rfl, rfl, containsSub_mid "<b>".data c "</b>".data,
    containsSub_of_left_append "Industry: ".data i⟩

theorem classifyStep_no_match (st : ClassifyState) (l : Line)
    (h : matchesAnyRule l = false) :
    classifyStep st l =
      match st.current_section with
      | some _ => { st with current_content := st.current_content ++ [l] }
      | none => st := by
  have h4 := h
  unfold matchesAnyRule at h4
  simp only [Bool.or_eq_false_iff] at h4
  obtain ⟨⟨⟨ho, hd⟩, hm⟩, hr⟩ := h4
  unfold classifyStep
  simp [ho, hd, hm, hr]

theorem foldl_classifyStep_none (ls : List Line) (secs : Sections) (cc : List Line)
    (h : ∀ l ∈ ls, matchesAnyRule l = false) :
    ls.foldl classifyStep ⟨secs, none, cc⟩ = ⟨secs, none, cc⟩ := by
  induction ls with
  | nil => rfl
  | cons l t ih =>
    rw [List.foldl_cons, classifyStep_no_match _ _ (h l (List.mem_cons_self l t))]
    exact ih fun x hx => h x (List.mem_cons_of_mem l hx)

theorem foldl_classifyStep_some (ls : List Line) (secs : Sections)
    (k : SectionKey) (cc : List Line)
    (h : ∀ l ∈ ls, matchesAnyRule l = false) :
    ls.foldl classifyStep ⟨secs, some k, cc⟩ = ⟨secs, some k, cc ++ ls⟩ := by
  induction ls generalizing cc with
  | nil => simp
  | cons l t ih =>
    rw [List.foldl_cons, classifyStep_no_match _ _ (h l (List.mem_cons_self l t))]
    simp only []
    rw [ih (cc ++ [l]) fun x hx => h x (List.mem_cons_of_mem l hx)]
    simp

/-- Claim C3: for any report text none of whose lines matches a recognized
section-header rule, `format_report_for_display` returns the whole original
text under `overview` and the empty string under the other three keys. -/
theorem classify_no_headers (text : List Char)
    (h : ∀ l ∈ splitNl text, matchesAnyRule l = false) :
    format_report_for_display text =
      { overview := text, detailed_analysis := [], competitor_matrix := [],
        recommendations := [] } := by
  rw [format_report_for_display_eq]
  unfold classifyPure classifyInit
  rw [foldl_classifyStep_none _ _ _ h]
  rfl

theorem classify_no_headers_witness :
    format_report_for_display "hello\nworld".data =
      { overview := "hello\nworld".data, detailed_analysis := [],
        competitor_matrix := [], recommendations := [] } :=
  classify_no_headers "hello\nworld".data (by decide)

/-- Claim C1: for a report text with headers for all four sections in order
(and no other header-matching lines), each `SectionMap` value holds exactly
the lines from its header (inclusive) to the next recognized header
(exclusive), joined by newlines; the last section runs to the end of the
text. -/
theorem classify_four_sections
    (text : List Char) (A B C D E : List Line) (h1 h2 h3 h4 : Line)
    (hsplit : splitNl text = A ++ h1 :: (B ++ h2 :: (C ++ h3 :: (D ++ h4 :: E))))
    (hA : ∀ l ∈ A, matchesAnyRule l = false)
    (hB : ∀ l ∈ B, matchesAnyRule l = false)
    (hC : ∀ l ∈ C, matchesAnyRule l = false)
    (hD : ∀ l ∈ D, matchesAnyRule l = false)
    (hE : ∀ l ∈ E, matchesAnyRule l = false)
    (hh1 : ruleOverview (lowerStrip h1) = true)
    (hh2a : ruleOverview (lowerStrip h2) = false)
    (hh2 : ruleDetailed (lowerStrip h2) = true)
    (hh3a : ruleOverview (lowerStrip h3) = false)
    (hh3b : ruleDetailed (lowerStrip h3) = false)
    (hh3 : ruleMatrix (lowerStrip h3) = true)
    (hh4a : ruleOverview (lowerStrip h4) = false)
    (hh4b : ruleDetailed (lowerStrip h4) = false)
    (hh4c : ruleMatrix (lowerStrip h4) = false)
    (hh4 : ruleRecommendations (lowerStrip h4) = true) :
    format_report_for_display text =
      { overview := joinNl (h1 :: B), detailed_analysis := joinNl (h2 :: C),
        competitor_matrix := joinNl (h3 :: D),
        recommendations := joinNl (h4 :: E) } := by
  have hne : h4 ≠ [] := by
    intro e
    rw [e] at hh4
    exact absurd hh4 (by decide)
  have h4e : (joinNl (h4 :: E)).isEmpty = false := by
    cases E with
    | nil => simpa [joinNl, List.isEmpty_iff] using hne
    | cons e es => simp [joinNl]
  have s1 : classifyStep ⟨sectionsInit, none, []⟩ h1 =
      ⟨sectionsInit, some .overview, [h1]⟩ := by
    unfold classifyStep
    simp [hh1, flushInto]
  have s2 : classifyStep ⟨sectionsInit, some .overview, h1 :: B⟩ h2 =
      ⟨setSection sectionsInit .overview (joinNl (h1 :: B)),
        some .detailed_analysis, [h2]⟩ := by
    unfold classifyStep
    simp [hh2a, hh2, flushInto]
  have s3 : ∀ S : Sections, classifyStep ⟨S, some .detailed_analysis, h2 :: C⟩ h3 =
      ⟨setSection S .detailed_analysis (joinNl (h2 :: C)),
        some .competitor_matrix, [h3]⟩ := by
    intro S
    unfold classifyStep
    simp [hh3a, hh3b, hh3, flushInto]
  have s4 : ∀ S : Sections, classifyStep ⟨S, some .competitor_matrix, h3 :: D⟩ h4 =
      ⟨setSection S .competitor_matrix (joinNl (h3 :: D)),
        some .recommendations, [h4]⟩ := by
    intro S
    unfold classifyStep
    simp [hh4a, hh4b, hh4c, hh4, flushInto]
  rw [format_report_for_display_eq]
  unfold classifyPure classifyInit
  rw [hsplit, List.foldl_append, foldl_classifyStep_none A sectionsInit [] hA,
    List.foldl_cons, s1, List.foldl_append,
    foldl_classifyStep_some B sectionsInit .overview [h1] hB,
    List.foldl_cons]
  rw [show ([h1] ++ B : List Line) = h1 :: B from rfl]
  rw [s2, List.foldl_append,
    foldl_classifyStep_some C _ .detailed_analysis [h2] hC, List.foldl_cons]
  rw [show ([h2] ++ C : List Line) = h2 :: C from rfl]
  rw [s3, List.foldl_append,
    foldl_classifyStep_some D _ .competitor_matrix [h3] hD, List.foldl_cons]
  rw [show ([h3] ++ D : List Line) = h3 :: D from rfl]
  rw [s4, foldl_classifyStep_some E _ .recommendations [h4] hE]
  rw [show ([h4] ++ E : List Line) = h4 :: E from rfl]
  simp [flushInto, setSection, sectionsInit, allSectionsEmpty, h4e]

theorem classify_four_sections_witness :
    format_report_for_display
        "Key Findings\na\nSWOT\nb\nComparison Matrix\nc\nRecommendation\nd".data =
      { overview := "Key Findings\na".data,
        detailed_analysis := "SWOT\nb".data,
        competitor_matrix := "Comparison Matrix\nc".data,
        recommendations := "Recommendation\nd".data } := by
  have h := classify_four_sections
    "Key Findings\na\nSWOT\nb\nComparison Matrix\nc\nRecommendation\nd".data
    [] ["a".data] ["b".data] ["c".data] ["d".data]
    "Key Findings".data "SWOT".data "Comparison Matrix".data "Recommendation".data
    (by decide) (by decide) (by decide) (by decide) (by decide) (by decide)
    (by decide) (by decide) (by decide) (by decide) (by decide) (by decide)
    (by decide) (by decide) (by decide) (by decide)
  rw [h]
  decide

theorem containsSub_market_false (ll : Line)
    (h : containsSub ll "opportunities".data = false) :
    containsSub ll "market opportunities".data = false := by
  by_contra hc
  rw [Bool.not_eq_false, containsSub_iff] at hc
  have hsub : "opportunities".data <:+: "market opportunities".data := by decide
  have : containsSub ll "opportunities".data = true :=
    (containsSub_iff ll "opportunities".data).mpr (hsub.trans hc)
  rw [this] at h
  cases h

theorem startsWithOpp_hash (r : List Char) :
    startsWithOpp ('#' :: '#' :: r) = false := by
  simp [startsWithOpp, List.isPrefixOf]

/-- Claim C10: once opportunity-counting is active, a line whose lowercased
text contains "opportunities" is skipped entirely — neither counted (even if
it begins with a list marker) nor stopping the count — and the count stops
exactly at a line starting with `##` that does not contain "opportunities". -/
theorem opportunities_line_skipped (m : Metrics) (l : Line) :
    (containsSub (pyLower l) "opportunities".data = true →
      oppStepM (m, true, false) l = (m, true, false)) ∧
    ((oppStepM (m, true, false) l).2.2 = true ↔
      ("##".data.isPrefixOf l = true ∧
        containsSub (pyLower l) "opportunities".data = false)) ∧
    (containsSub (pyLower l) "opportunities".data = false →
      "##".data.isPrefixOf l = false →
      oppStepM (m, true, false) l =
        (if startsWithOpp (pyStrip l) then
          ({ m with opportunities := m.opportunities + 1 }, true, false)
        else (m, true, false))) := by
  refine ⟨fun hc => ?_, ?_, fun hc hp => ?_⟩
  · unfold oppStepM
    simp [hc]
  · constructor
    · intro hb
      unfold oppStepM at hb
      by_cases hc : containsSub (pyLower l) "opportunities".data
      · simp [hc] at hb
      · have hm := containsSub_market_false _ (by simpa using hc)
        refine ⟨?_, by simpa using hc⟩
        by_cases hp : "##".data.isPrefixOf l
        · exact hp
        · by_cases hs : startsWithOpp (pyStrip l) <;>
            simp [hm, hc, hp, hs] at hb
    · rintro ⟨hp, hc⟩
      have hm := containsSub_market_false _ hc
      have hs : startsWithOpp (pyStrip l) = false := by
        obtain ⟨r, hr⟩ : ∃ r, l = '#' :: '#' :: r := by
          have := List.isPrefixOf_iff_prefix.mp hp
          obtain ⟨t, ht⟩ := this
          exact ⟨t, ht.symm⟩
        subst hr
        have hlst : lstrip ('#' :: '#' :: r) = '#' :: '#' :: r := by
          simp [lstrip, List.dropWhile_cons]
        rw [show pyStrip ('#' :: '#' :: r) = rstrip (lstrip ('#' :: '#' :: r)) from rfl,
          hlst, rstrip_cons _ _ (by decide), rstrip_cons _ _ (by decide)]
        exact startsWithOpp_hash _
      unfold oppStepM
      simp [hm, hc, hs, hp]
  · have hm := containsSub_market_false _ hc
    unfold oppStepM
    by_cases hs : startsWithOpp (pyStrip l) <;> simp [hm, hc, hs, hp]

theorem opportunities_line_skipped_witness :
    oppStepM (defaultMetrics, true, false) "1. New opportunities ahead".data =
      (defaultMetrics, true, false) ∧
    (oppStepM (defaultMetrics, true, false) "## Threats".data).2.2 = true ∧
    oppStepM (defaultMetrics, true, false) "- item".data =
      ({ defaultMetrics with opportunities := 1 }, true, false) := by
  refine ⟨(opportunities_line_skipped defaultMetrics
      "1. New opportunities ahead".data).1 (by decide),
    (opportunities_line_skipped defaultMetrics
      "## Threats".data).2.1.mpr ⟨by decide, by decide⟩, ?_⟩
  have h := (opportunities_line_skipped defaultMetrics "- item".data).2.2
    (by decide) (by decide)
  rw [h]
  decide

theorem pyScanl_head (f : β → α → β) (b : β) (l : List α) :
    ∃ t, pyScanl f b l = b :: t := by
  cases l with
  | nil => exact ⟨[], rfl⟩
  | cons a as => exact ⟨pyScanl f (f b a) as, rfl⟩

/-- Claim C5 counterexample: an exception interrupting `extract_key_metrics`
after the first competitor-counting iteration on the input `### Alpha` is
caught, and the function returns the partially updated metrics
(`num_competitors = 1`), not the zero/default record. -/
theorem extract_onException_partial :
    extract_key_metrics_onException "### Alpha".data 1 ≠ defaultMetrics := by
  decide

/-- Claim C5 as amended: when an exception occurs during
`extract_key_metrics`, the `except` clause catches it and the function
returns the `metrics` dict as accumulated up to the interruption point; that
equals the zero/default-initialized record exactly in the case that the
exception struck before any update ran (interruption point 0). -/
theorem extract_onException_zero (r : List Char) :
    extract_key_metrics_onException r 0 = defaultMetrics := by
  unfold extract_key_metrics_onException metricsTrajectory
  obtain ⟨t, ht⟩ := pyScanl_head compStepM defaultMetrics (splitNl r)
  simp [ht]

theorem compStepM_key_findings (m : Metrics) (l : Line) :
    (compStepM m l).key_findings = m.key_findings := by
  unfold compStepM
  split <;> rfl

theorem foldl_compStepM_key_findings (ls : List Line) (m : Metrics) :
    (ls.foldl compStepM m).key_findings = m.key_findings := by
  induction ls generalizing m with
  | nil => rfl
  | cons l t ih =>
    rw [List.foldl_cons, ih, compStepM_key_findings]

theorem oppStepM_key_findings (st : Metrics × Bool × Bool) (l : Line) :
    ((oppStepM st l).1).key_findings = st.1.key_findings := by
  obtain ⟨m, inO, br⟩ := st
  cases br
  · simp only [oppStepM]
    (repeat' split) <;> rfl
  · simp only [oppStepM]

theorem foldl_oppStepM_key_findings (ls : List Line) (st : Metrics × Bool × Bool) :
    ((ls.foldl oppStepM st).1).key_findings = st.1.key_findings := by
  induction ls generalizing st with
  | nil => rfl
  | cons l t ih =>
    rw [List.foldl_cons, ih, oppStepM_key_findings]

theorem foldl_findStepM_skip (ls : List Line) (m : Metrics)
    (h : ∀ l ∈ ls, containsSub (pyLower l) "key findings".data = false) :
    ls.foldl findStepM (m, false, false) = (m, false, false) := by
  induction ls with
  | nil => rfl
  | cons l t ih =>
    rw [List.foldl_cons]
    have hstep : findStepM (m, false, false) l = (m, false, false) := by
      unfold findStepM
      simp [h l (List.mem_cons_self l t)]
    rw [hstep]
    exact ih fun x hx => h x (List.mem_cons_of_mem l hx)

theorem foldl_findStepM_broken (ls : List Line) (m : Metrics) (inF : Bool) :
    ls.foldl findStepM (m, inF, true) = (m, inF, true) := by
  induction ls with
  | nil => rfl
  | cons l t ih =>
    rw [List.foldl_cons]
    exact ih

theorem startsWithNum_hash (r : List Char) :
    startsWithNum ('#' :: '#' :: r) = false := by
  simp [startsWithNum, List.isPrefixOf]

theorem findStepM_collect (m : Metrics) (d : Char) (t : Line)
    (hkf : containsSub (pyLower (d :: '.' :: ' ' :: t)) "key findings".data = false)
    (hstr : pyStrip (d :: '.' :: ' ' :: t) = d :: '.' :: ' ' :: t)
    (hnum : startsWithNum (d :: '.' :: ' ' :: t) = true) :
    findStepM (m, true, false) (d :: '.' :: ' ' :: t) =
      ({ m with key_findings := m.key_findings ++ [pyStrip t] }, true, false) := by
  unfold findStepM
  simp [hkf, hstr, hnum]

/-- Claim C6: for an input whose lines contain a "Key Findings" trigger line
followed by five numbered lines `1. t1` .. `5. t5` and then a `##` heading,
`extract_key_metrics` returns exactly five findings, the i-th being the text
after the marker with marker and surrounding whitespace stripped; the trigger
line is not collected and nothing after the `##` line is collected. -/
theorem extract_key_findings_five
    (text : List Char) (P Q : List Line) (trig hh : Line) (t1 t2 t3 t4 t5 : Line)
    (hsplit : splitNl text = P ++ trig :: ('1' :: '.' :: ' ' :: t1) ::
      ('2' :: '.' :: ' ' :: t2) :: ('3' :: '.' :: ' ' :: t3) ::
      ('4' :: '.' :: ' ' :: t4) :: ('5' :: '.' :: ' ' :: t5) :: hh :: Q)
    (hP : ∀ l ∈ P, containsSub (pyLower l) "key findings".data = false)
    (htrig : containsSub (pyLower trig) "key findings".data = true)
    (hkf1 : containsSub (pyLower ('1' :: '.' :: ' ' :: t1)) "key findings".data = false)
    (hkf2 : containsSub (pyLower ('2' :: '.' :: ' ' :: t2)) "key findings".data = false)
    (hkf3 : containsSub (pyLower ('3' :: '.' :: ' ' :: t3)) "key findings".data = false)
    (hkf4 : containsSub (pyLower ('4' :: '.' :: ' ' :: t4)) "key findings".data = false)
    (hkf5 : containsSub (pyLower ('5' :: '.' :: ' ' :: t5)) "key findings".data = false)
    (hs1 : pyStrip ('1' :: '.' :: ' ' :: t1) = '1' :: '.' :: ' ' :: t1)
    (hs2 : pyStrip ('2' :: '.' :: ' ' :: t2) = '2' :: '.' :: ' ' :: t2)
    (hs3 : pyStrip ('3' :: '.' :: ' ' :: t3) = '3' :: '.' :: ' ' :: t3)
    (hs4 : pyStrip ('4' :: '.' :: ' ' :: t4) = '4' :: '.' :: ' ' :: t4)
    (hs5 : pyStrip ('5' :: '.' :: ' ' :: t5) = '5' :: '.' :: ' ' :: t5)
    (hhp : "##".data.isPrefixOf hh = true)
    (hhkf : containsSub (pyLower hh) "key findings".data = false) :
    (extract_key_metrics text).key_findings =
      [pyStrip t1, pyStrip t2, pyStrip t3, pyStrip t4, pyStrip t5] := by
  have strig : ∀ m : Metrics, findStepM (m, false, false) trig = (m, true, false) := by
    intro m
    unfold findStepM
    simp [htrig]
  have shh : ∀ m : Metrics, findStepM (m, true, false) hh = (m, true, true) := by
    intro m
    have hsn : startsWithNum (pyStrip hh) = false := by
      obtain ⟨t, ht⟩ := List.isPrefixOf_iff_prefix.mp hhp
      have hh_eq : hh = '#' :: '#' :: t := ht.symm
      subst hh_eq
      have hlst : lstrip ('#' :: '#' :: t) = '#' :: '#' :: t := by
        simp [lstrip, List.dropWhile_cons]
      rw [show pyStrip ('#' :: '#' :: t) = rstrip (lstrip ('#' :: '#' :: t)) from rfl,
        hlst, rstrip_cons _ _ (by decide), rstrip_cons _ _ (by decide)]
      exact startsWithNum_hash _
    unfold findStepM
    simp [hhkf, hsn, hhp]
  rw [extract_key_metrics_eq]
  unfold extractPure
  rw [hsplit]
  rw [foldl_oppStepM_key_findings]
  rw [List.foldl_append, foldl_findStepM_skip P _ hP, List.foldl_cons, strig,
    List.foldl_cons, findStepM_collect _ '1' t1 hkf1 hs1 rfl,
    List.foldl_cons, findStepM_collect _ '2' t2 hkf2 hs2 rfl,
    List.foldl_cons, findStepM_collect _ '3' t3 hkf3 hs3 rfl,
    List.foldl_cons, findStepM_collect _ '4' t4 hkf4 hs4 rfl,
    List.foldl_cons, findStepM_collect _ '5' t5 hkf5 hs5 rfl,
    List.foldl_cons, shh, foldl_findStepM_broken]
  simp [foldl_compStepM_key_findings, compStepM_key_findings, defaultMetrics]

theorem extract_key_findings_five_witness :
    (extract_key_metrics
        "Key Findings\n1. a\n2. b\n3. c\n4. d\n5. e\n## Next\nx".data).key_findings =
      ["a".data, "b".data, "c".data, "d".data, "e".data] := by
  have h := extract_key_findings_five
    "Key Findings\n1. a\n2. b\n3. c\n4. d\n5. e\n## Next\nx".data
    [] ["x".data] "Key Findings".data "## Next".data
    "a".data "b".data "c".data "d".data "e".data
    (by decide) (by decide) (by decide) (by decide) (by decide) (by decide)
    (by decide) (by decide) (by decide) (by decide) (by decide) (by decide)
    (by decide) (by decide) (by decide)
  rw [h]
  decide
